import Mathlib

/-!
# Verification of the Chalk semantic analyzer and code generator

Shallow embedding of the Chalk compiler back end:

* `ast_nodes.py` — the AST node taxonomy (`Expr`, `Stmt`, a `Program` is a
  list of statements; every node carries an optional source line used only
  for diagnostics);
* `semantic.py` — the scope-stack semantic analyzer (`checkExpr`,
  `checkStmt`, `analyze`);
* `codegen.py` — the C code generator (`genExpr`, `genStmt`, `generate`,
  `exprType`, `genPrint`).

Modelling conventions:

* Python `float` literal payloads are modelled with an integral value
  (`PyNum.float n`, rendered by `str` as `n ++ ".0"`): every claim depends
  only on the int/float classification and on the rendering shape, never on
  a fractional part.
* Python exceptions are modelled by `Except`: `PyError.chalk msg` is a
  `ChalkError` (the spec's `SemanticError`) and `PyError.attrError` is an
  `AttributeError` escaping from an attribute access that the class does
  not provide (`FuncSymbol` has no `type_` field; `PrintStmt` has no
  `value` field).  Because the Python analyzer mutates `self` and an
  exception leaves those mutations in place, an analyzer error carries the
  analyzer state as it was at the moment of the raise.
* Python `dict` insertion-with-overwrite is modelled by consing onto an
  association list whose lookup takes the first (most recent) match.
* The Python scope stack appends the innermost scope at the end of the
  list; the embedding keeps the innermost scope at the head, so
  `push = cons`, `pop = tail`, `scopes[-1] = head`, and Python's
  `reversed`-order lookup is a head-to-tail walk here.
* The code generator's failures (`KeyError` from the type-mapping dict,
  `TypeError` from `str.join` over a `None`) are modelled by `Option`;
  the generator has no user-facing error path, and no claim inspects a
  generator crash state.
-/

namespace Chalk

/-- Python numbers as stored in `Number.value`: either an `int` or a
`float`; see the modelling note above about the `float` payload. -/
inductive PyNum where
  | int (n : Int)
  | float (n : Int)
  deriving DecidableEq, Repr

/-- Python `str()` of a `Number.value`. -/
def pyStr : PyNum → String
  | .int n => toString n
  | .float n => toString n ++ ".0"

/-- Python f-string interpolation of an `Optional[str]`: `None` renders as
the text `"None"`. -/
def pyNoneStr : Option String → String
  | some s => s
  | none => "None"

/-- Python truthiness of an `Optional[str]` (`if value_type:`): `None` and
the empty string are falsy. -/
def pyTruthy : Option String → Bool
  | some s => s ≠ ""
  | none => false

/-- Expression nodes of `ast_nodes.py`.  Every constructor carries the
optional `line` attribute of the `Node` base class. -/
inductive Expr where
  | number (value : PyNum) (line : Option Nat)
  | str (value : String) (line : Option Nat)
  | bool (value : Bool) (line : Option Nat)
  | var (name : String) (line : Option Nat)
  | unaryOp (op : String) (operand : Expr) (line : Option Nat)
  | binOp (left : Expr) (op : String) (right : Expr) (line : Option Nat)
  | funcCall (name : String) (args : List Expr) (line : Option Nat)

/-- Statement nodes of `ast_nodes.py`.  `IfStmt.else_body` is the empty
list when the source program has no `else` clause. -/
inductive Stmt where
  | varDecl (name : String) (type_ : String) (value : Expr) (mutable : Bool)
      (line : Option Nat)
  | assign (name : String) (value : Expr) (line : Option Nat)
  | ifStmt (condition : Expr) (then_body : List Stmt) (else_body : List Stmt)
      (line : Option Nat)
  | whileStmt (condition : Expr) (body : List Stmt) (line : Option Nat)
  | funcDef (name : String) (params : List (String × String))
      (return_type : String) (body : List Stmt) (line : Option Nat)
  | returnStmt (value : Option Expr) (line : Option Nat)
  | printStmt (values : List Expr) (line : Option Nat)
  | exprStmt (value : Expr) (line : Option Nat)

/-- A `Program` is its ordered top-level statement list. -/
abbrev Program := List Stmt

/-! ## Symbol table (`semantic.py`) -/

/-- `Symbol`: a variable binding (name, type tag, mutability). -/
structure Symbol where
  name : String
  type_ : String
  mutable : Bool
  deriving DecidableEq, Repr

/-- `FuncSymbol`: a function binding.  It has no `type_` field — reading
one is an `AttributeError` (see `symTypeAttr`). -/
structure FuncSymbol where
  name : String
  params : List (String × String)
  return_type : String
  deriving DecidableEq, Repr

/-- A scope entry is either of the two symbol classes (they share no base
class; `isinstance(sym, Symbol)` is false for a `FuncSymbol`). -/
inductive Sym where
  | var (s : Symbol)
  | func (f : FuncSymbol)
  deriving DecidableEq, Repr

/-- One `Scope`: the `symbols` dict, as an association list with the most
recent insertion at the head (overwrite = shadowing cons). -/
abbrev Scope := List (String × Sym)

/-- `Scope.lookup`: `self.symbols.get(name, None)`. -/
def scopeLookup (sc : Scope) (n : String) : Option Sym :=
  (sc.find? (fun p => p.1 = n)).map (·.2)

/-- Python exceptions escaping the analyzer. -/
inductive PyError where
  | chalk (msg : String)
  | attrError
  deriving DecidableEq, Repr

/-- Analyzer state: the scope stack (head = innermost, Python's
`scopes[-1]`) and the current-function reference. -/
structure AState where
  scopes : List Scope
  current_func : Option FuncSymbol
  deriving DecidableEq, Repr

/-- `_push_scope`: append an empty scope (cons at our innermost end). -/
def pushScope (st : AState) : AState :=
  { st with scopes := [] :: st.scopes }

/-- `_pop_scope`: drop the innermost scope.  (Python's `list.pop` on an
empty list raises; that point is unreachable from the initial state, since
every pop follows its paired push.) -/
def popScope (st : AState) : AState :=
  { st with scopes := st.scopes.tail }

/-- `_define`: insert into the current (innermost) scope.  (Python's
`scopes[-1]` on an empty stack raises; unreachable from the initial
state.) -/
def defineSym (st : AState) (n : String) (s : Sym) : AState :=
  { st with
    scopes :=
      match st.scopes with
      | [] => []
      | sc :: rest => ((n, s) :: sc) :: rest }

/-- `_lookup`: innermost-to-outermost search, first match wins. -/
def lookupSym : List Scope → String → Option Sym
  | [], _ => none
  | sc :: rest, n =>
    match scopeLookup sc n with
    | some s => some s
    | none => lookupSym rest n

/-- `_error`'s message assembly: `f"* {prefix}{msg}"` where the
`[line #l]: ` prefix is added only when `line` is truthy (so neither for
`None` nor for line `0`). -/
def errMsg (msg : String) (line : Option Nat) : String :=
  "* " ++
    (match line with
     | some l => if l = 0 then "" else "[line #" ++ toString l ++ "]: "
     | none => "") ++ msg

/-- Reading `sym.type_`: a `Symbol` has the attribute, a `FuncSymbol` does
not, so the access raises `AttributeError`. -/
def symTypeAttr : Sym → Except PyError String
  | .var v => .ok v.type_
  | .func _ => .error .attrError

/-- The comparison operator tuple of `semantic.py`/`codegen.py`. -/
def compareOps : List String := ["==", "!=", "<", ">", "<=", ">="]

/-- The arithmetic operator tuple of `semantic.py`. -/
def arithOps : List String := ["+", "-", "*", "/"]

mutual

/-- `_check_expr` (with `_check_binop` and `_check_func_call` inlined at
their call sites, and the argument loop of `_check_func_call` split into
`checkArgs`).  Returns the inferred type tag, or `none` for "unknown".
The expression checker never mutates the analyzer state, so an error here
is just the exception; `checkStmt` pairs it with the state at the raise. -/
def checkExpr (st : AState) : Expr → Except PyError (Option String)
  | .number (.float _) _ => .ok (some "float")
  | .number (.int _) _ => .ok (some "int")
  | .str _ _ => .ok (some "string")
  | .bool _ _ => .ok (some "bool")
  | .var n l =>
    match lookupSym st.scopes n with
    | none => .error (.chalk (errMsg ("undefined variable '" ++ n ++ "'") l))
    | some sym => (symTypeAttr sym).map some
  | .unaryOp _ e l =>
    match checkExpr st e with
    | .error pe => .error pe
    | .ok ot =>
      if ot = some "int" ∨ ot = some "float" then .ok ot
      else
        .error (.chalk (errMsg
          ("unary '-' requires int or float, got '" ++ pyNoneStr ot ++ "'") l))
  | .binOp lhs op rhs l =>
    match checkExpr st lhs with
    | .error pe => .error pe
    | .ok lt =>
      match checkExpr st rhs with
      | .error pe => .error pe
      | .ok rt =>
        if op ∈ compareOps then
          if lt ≠ rt then
            .error (.chalk (errMsg
              ("cannot compare '" ++ pyNoneStr lt ++ "' and '" ++
                pyNoneStr rt ++ "'") l))
          else .ok (some "bool")
        else if op ∈ arithOps then
          if lt ≠ rt then
            .error (.chalk (errMsg
              ("type mismatch: cannot apply '" ++ op ++ "' to '" ++
                pyNoneStr lt ++ "' and '" ++ pyNoneStr rt ++ "'") l))
          else .ok lt
        else .ok none
  | .funcCall n args l =>
    match lookupSym st.scopes n with
    | none => .error (.chalk (errMsg ("undefined function '" ++ n ++ "'") l))
    | some (.var _) =>
      .error (.chalk (errMsg ("'" ++ n ++ "' is a variable, not a function") l))
    | some (.func fs) =>
      if args.length ≠ fs.params.length then
        .error (.chalk (errMsg
          ("'" ++ n ++ "' expects " ++ toString fs.params.length ++
            " argument(s), got " ++ toString args.length) l))
      else
        match checkArgs st n args fs.params 0 l with
        | .error pe => .error pe
        | .ok _ => .ok (some fs.return_type)

/-- The `zip`-and-`enumerate` argument loop of `_check_func_call`
(`zip` stops at the shorter list; `i` is the running 0-based index and the
message is 1-indexed; `l` is the call node's line). -/
def checkArgs (st : AState) (fname : String) :
    List Expr → List (String × String) → Nat → Option Nat →
    Except PyError Unit
  | [], _, _, _ => .ok ()
  | _ :: _, [], _, _ => .ok ()
  | a :: as, p :: ps, i, l =>
    match checkExpr st a with
    | .error pe => .error pe
    | .ok at_ =>
      if pyTruthy at_ ∧ at_ ≠ some p.2 then
        .error (.chalk (errMsg
          ("argument " ++ toString (i + 1) ++ " of '" ++ fname ++
            "': expected '" ++ p.2 ++ "', got '" ++ pyNoneStr at_ ++ "'") l))
      else checkArgs st fname as ps (i + 1) l

end

/-- `_check_expr(None)` (a bare `return`): every `isinstance` test fails,
the function falls through and returns `None`. -/
def checkExprOpt (st : AState) : Option Expr → Except PyError (Option String)
  | none => .ok none
  | some e => checkExpr st e

/-- `_check_var_decl`: check the initializer in the *unmodified* state,
then the declared-type compatibility, then register the symbol. -/
def checkVarDecl (st : AState) (n t : String) (v : Expr) (m : Bool)
    (l : Option Nat) : Except (PyError × AState) AState :=
  match checkExpr st v with
  | .error pe => .error (pe, st)
  | .ok vt =>
    if pyTruthy vt ∧ vt ≠ some t then
      .error (.chalk (errMsg
        ("type mismatch: '" ++ n ++ "' is '" ++ t ++ "' but got '" ++
          pyNoneStr vt ++ "'") l), st)
    else .ok (defineSym st n (.var ⟨n, t, m⟩))

/-- The tail of `_check_assign` after the undefined/immutability checks:
check the value, then compare against `sym.type_` — an attribute a
`FuncSymbol` does not have (`symTypeAttr`). -/
def checkAssignValue (st : AState) (n : String) (v : Expr) (l : Option Nat)
    (sym : Sym) : Except (PyError × AState) AState :=
  match checkExpr st v with
  | .error pe => .error (pe, st)
  | .ok vt =>
    if pyTruthy vt then
      match symTypeAttr sym with
      | .error pe => .error (pe, st)
      | .ok t0 =>
        if vt ≠ some t0 then
          .error (.chalk (errMsg
            ("type mismatch in assignment to '" ++ n ++ "': expected '" ++
              t0 ++ "', got '" ++ pyNoneStr vt ++ "'") l), st)
        else .ok st
    else .ok st

/-- `_check_assign`: the target must be bound; a `Symbol` target must be
mutable (`isinstance(sym, Symbol)` is false for a `FuncSymbol`, so a
function target skips the immutability check); then the value check. -/
def checkAssign (st : AState) (n : String) (v : Expr) (l : Option Nat) :
    Except (PyError × AState) AState :=
  match lookupSym st.scopes n with
  | none =>
    .error (.chalk (errMsg ("undefined variable '" ++ n ++ "'") l), st)
  | some (.var s) =>
    if !s.mutable then
      .error (.chalk (errMsg
        ("cannot assign to immutable variable '" ++ n ++ "'\n" ++
          "hint: declare it as 'mut " ++ n ++ ": " ++ s.type_ ++ " = ...'") l),
        st)
    else checkAssignValue st n v l (.var s)
  | some (.func f) => checkAssignValue st n v l (.func f)

/-- `_check_return`: must be inside a function; a truthy inferred value
type must equal the current function's declared return type. -/
def checkReturn (st : AState) (v : Option Expr) (l : Option Nat) :
    Except (PyError × AState) AState :=
  match st.current_func with
  | none =>
    .error (.chalk (errMsg "'return' used outside of a function" l), st)
  | some cf =>
    match checkExprOpt st v with
    | .error pe => .error (pe, st)
    | .ok rt =>
      if pyTruthy rt ∧ rt ≠ some cf.return_type then
        .error (.chalk (errMsg
          ("return type mismatch in '" ++ cf.name ++ "': expected '" ++
            cf.return_type ++ "', got '" ++ pyNoneStr rt ++ "'") l), st)
      else .ok st

mutual

/-- `_check_stmt` dispatch with `_check_if`, `_check_while` and
`_check_func_def` inlined.  An error carries the mutated analyzer state at
the moment of the raise — in particular the scope pops that lexically
follow the raising walk are skipped, exactly as in the Python source where
no `try`/`finally` guards the pops.  The `printStmt` arm reads
`node.value`, an attribute `PrintStmt` (which has `values`) does not
define, so it raises `AttributeError`. -/
def checkStmt : AState → Stmt → Except (PyError × AState) AState
  | st, .varDecl n t v m l => checkVarDecl st n t v m l
  | st, .assign n v l => checkAssign st n v l
  | st, .ifStmt c tb eb _ =>
    match checkExpr st c with
    | .error pe => .error (pe, st)
    | .ok _ =>
      match checkStmts (pushScope st) tb with
      | .error e => .error e
      | .ok st2 =>
        match checkStmts (pushScope (popScope st2)) eb with
        | .error e => .error e
        | .ok st3 => .ok (popScope st3)
  | st, .whileStmt c b _ =>
    match checkExpr st c with
    | .error pe => .error (pe, st)
    | .ok _ =>
      match checkStmts (pushScope st) b with
      | .error e => .error e
      | .ok st2 => .ok (popScope st2)
  | st, .funcDef n ps rt b _ =>
    let fs : FuncSymbol := ⟨n, ps, rt⟩
    let st1 := defineSym st n (.func fs)
    let prev := st1.current_func
    let st2 := { pushScope st1 with current_func := some fs }
    let st3 := ps.foldl
      (fun s p => defineSym s p.1 (.var ⟨p.1, p.2, false⟩)) st2
    match checkStmts st3 b with
    | .error e => .error e
    | .ok st4 => .ok (popScope { st4 with current_func := prev })
  | st, .returnStmt v l => checkReturn st v l
  | st, .printStmt _ _ => .error (.attrError, st)
  | st, .exprStmt e _ =>
    match checkExpr st e with
    | .error pe => .error (pe, st)
    | .ok _ => .ok st

/-- Statement-sequence walk (the `for` loops of `analyze`, `_check_if`,
`_check_while`, `_check_func_def`): stop at the first exception. -/
def checkStmts : AState → List Stmt → Except (PyError × AState) AState
  | st, [] => .ok st
  | st, s :: ss =>
    match checkStmt st s with
    | .error e => .error e
    | .ok st' => checkStmts st' ss

end

/-- The analyzer's initial state: one empty global scope, no current
function (`SemanticAnalyzer.__init__`). -/
def initState : AState := ⟨[[]], none⟩

/-- `SemanticAnalyzer().analyze(program)` on a fresh analyzer. -/
def analyze (prog : Program) : Except (PyError × AState) AState :=
  checkStmts initState prog

/-! ## Code generator (`codegen.py`) -/

/-- `chalk_type_to_c`: the fixed type-mapping dict; an unknown tag is a
`KeyError` (`none`). -/
def chalkTypeToC : String → Option String
  | "int" => some "int"
  | "float" => some "float"
  | "string" => some "char*"
  | "bool" => some "int"
  | "void" => some "void"
  | _ => none

/-- Generator state: indentation depth, emitted lines, and the two flat
print-time type dicts (association lists, most recent entry first). -/
structure CGState where
  indent_level : Nat
  output : List String
  var_types : List (String × String)
  func_return_types : List (String × String)
  deriving DecidableEq, Repr

/-- `_indent`: four spaces per level. -/
def indentOf : Nat → String
  | 0 => ""
  | n + 1 => "    " ++ indentOf n

/-- `_emit`: append one indented line. -/
def emit (st : CGState) (line : String) : CGState :=
  { st with output := st.output ++ [indentOf st.indent_level ++ line] }

mutual

/-- `_gen_expr`.  The `UnaryOp` arm of the Python `match` only covers
`op == "-"`; any other unary falls off the `match` and the method returns
`None` (`none` here).  At an f-string interpolation site a `None` child
renders as the text `"None"` (`pyNoneStr`); at the `str.join` sites
(`FuncCall` arguments, print arguments) a `None` element is a `TypeError`,
modelled by propagating `none` (`genArgs`). -/
def genExpr : Expr → Option String
  | .number v _ => some (pyStr v)
  | .str v _ => some ("\"" ++ v ++ "\"")
  | .bool v _ => some (if v then "1" else "0")
  | .var n _ => some n
  | .unaryOp op e _ =>
    if op = "-" then some ("-" ++ pyNoneStr (genExpr e)) else none
  | .binOp l op r _ =>
    some ("(" ++ pyNoneStr (genExpr l) ++ " " ++ op ++ " " ++
      pyNoneStr (genExpr r) ++ ")")
  | .funcCall n args _ =>
    (genArgs args).map
      (fun ss => n ++ "(" ++ String.intercalate ", " ss ++ ")")

/-- The `", ".join(self._gen_expr(a) for a in args)` site: all argument
strings, or a `TypeError` (`none`) if any generator result is `None`. -/
def genArgs : List Expr → Option (List String)
  | [] => some []
  | a :: as =>
    match genExpr a, genArgs as with
    | some s, some ss => some (s :: ss)
    | _, _ => none

end

/-- `_gen_expr` as used inside an f-string (statement lowering sites). -/
def genExprS (e : Expr) : String := pyNoneStr (genExpr e)

/-- `_expr_type`: the generator's own print-time type inference over its
flat global tables. -/
def exprType (st : CGState) : Expr → Option String
  | .number (.float _) _ => some "float"
  | .number (.int _) _ => some "int"
  | .str _ _ => some "string"
  | .bool _ _ => some "bool"
  | .var n _ => (st.var_types.find? (fun p => p.1 = n)).map (·.2)
  | .unaryOp _ e _ => exprType st e
  | .binOp l op _ _ =>
    if op ∈ compareOps then some "bool" else exprType st l
  | .funcCall n _ _ =>
    (st.func_return_types.find? (fun p => p.1 = n)).map (·.2)

/-- `_fmt`: printf placeholder per type tag; the wildcard arm (unknown or
`None`) falls back to `%d`. -/
def fmtOf : Option String → String
  | some "string" => "%s"
  | some "float" => "%f"
  | some "bool" => "%d"
  | some "int" => "%d"
  | _ => "%d"

/-- `_gen_print`: placeholders in argument order, a literal `\n` escape
(two characters in the C source), one `printf` line. -/
def genPrint (st : CGState) (values : List Expr) : Option CGState :=
  let fmt := String.join (values.map (fun v => fmtOf (exprType st v))) ++ "\\n"
  match genArgs values with
  | none => none
  | some ss =>
    some (emit st
      ("printf(\"" ++ fmt ++ "\", " ++ String.intercalate ", " ss ++ ");"))

/-- The parameter-list rendering of the `FuncDef` arm:
`", ".join(f"{chalk_type_to_c(t)} {n}" for n, t in params)`, with a
possible `KeyError` per parameter type. -/
def paramsToC : List (String × String) → Option (List String)
  | [] => some []
  | p :: ps =>
    match chalkTypeToC p.2, paramsToC ps with
    | some ct, some rest => some ((ct ++ " " ++ p.1) :: rest)
    | _, _ => none

mutual

/-- `_gen_stmt`.  `none` is a generator crash (`KeyError` in
`chalk_type_to_c`, or `TypeError` in a `join`); the Python source mutates
`self` before some of these crash points, but no claim observes a crashed
generator's state, so `Option` discards it. -/
def genStmt : CGState → Stmt → Option CGState
  | st, .varDecl n t v m _ =>
    let st1 := { st with var_types := (n, t) :: st.var_types }
    match chalkTypeToC t with
    | none => none
    | some ct =>
      let cv := genExprS v
      some (emit st1
        (if m then ct ++ " " ++ n ++ " = " ++ cv ++ ";"
         else "const " ++ ct ++ " " ++ n ++ " = " ++ cv ++ ";"))
  | st, .assign n v _ => some (emit st (n ++ " = " ++ genExprS v ++ ";"))
  | st, .printStmt vs _ => genPrint st vs
  | st, .returnStmt v _ =>
    match v with
    | none => some (emit st "return;")
    | some e => some (emit st ("return " ++ genExprS e ++ ";"))
  | st, .exprStmt e _ => some (emit st (genExprS e ++ ";"))
  | st, .ifStmt c tb eb _ =>
    let st1 := { emit st ("if (" ++ genExprS c ++ ") \x7b") with
      indent_level := st.indent_level + 1 }
    match genStmts st1 tb with
    | none => none
    | some st2 =>
      let st3 := { st2 with indent_level := st2.indent_level - 1 }
      if eb.isEmpty then some (emit st3 "\x7d")
      else
        let st4 := { emit st3 "\x7d else \x7b" with
          indent_level := st3.indent_level + 1 }
        match genStmts st4 eb with
        | none => none
        | some st5 =>
          some (emit { st5 with indent_level := st5.indent_level - 1 } "\x7d")
  | st, .whileStmt c b _ =>
    let st1 := { emit st ("while (" ++ genExprS c ++ ") \x7b") with
      indent_level := st.indent_level + 1 }
    match genStmts st1 b with
    | none => none
    | some st2 =>
      some (emit { st2 with indent_level := st2.indent_level - 1 } "\x7d")
  | st, .funcDef n ps rt b _ =>
    let st1 := { st with
      func_return_types := (n, rt) :: st.func_return_types,
      var_types := ps.foldl (fun acc p => (p.1, p.2) :: acc) st.var_types }
    match chalkTypeToC rt with
    | none => none
    | some crt =>
      match paramsToC ps with
      | none => none
      | some cps =>
        let st2 := { emit st1
            (crt ++ " " ++ n ++ "(" ++ String.intercalate ", " cps ++ ") \x7b")
          with indent_level := st1.indent_level + 1 }
        match genStmts st2 b with
        | none => none
        | some st3 =>
          some (emit
            (emit { st3 with indent_level := st3.indent_level - 1 } "\x7d") "")

/-- The statement loops of `generate`/`_gen_stmt`. -/
def genStmts : CGState → List Stmt → Option CGState
  | st, [] => some st
  | st, s :: ss =>
    match genStmt st s with
    | none => none
    | some st' => genStmts st' ss

end

/-- Is this top-level statement a `FuncDef`?  (`isinstance(stmt, FuncDef)`
in `generate`.) -/
def isFuncDef : Stmt → Bool
  | .funcDef _ _ _ _ _ => true
  | _ => false

/-- A fresh `CodeGenerator.__init__` state. -/
def cgInit : CGState := ⟨0, [], [], []⟩

/-- The state after the two include directives and the blank line that
`generate` emits first. -/
def headerState : CGState :=
  emit (emit (emit cgInit "#include <stdio.h>") "#include <string.h>") ""

/-- `CodeGenerator().generate(program)` on a fresh generator: includes,
then the `FuncDef`s in source order, then — only when a non-`FuncDef`
top-level statement exists — the synthetic `main` wrapper, joined by
newlines. -/
def generate (prog : Program) : Option String :=
  match genStmts headerState (prog.filter isFuncDef) with
  | none => none
  | some st1 =>
    let nonFunc := prog.filter (fun s => !isFuncDef s)
    if nonFunc.isEmpty then some (String.intercalate "\n" st1.output)
    else
      match genStmts
          { emit st1 "int main() \x7b" with
            indent_level := st1.indent_level + 1 } nonFunc with
      | none => none
      | some st2 =>
        let st3 := emit st2 "return 0;"
        let st4 := emit { st3 with indent_level := st3.indent_level - 1 } "\x7d"
        some (String.intercalate "\n" st4.output)

mutual

/-- The (name, type) pairs that the generator's emission walk of one
statement records in `_var_types`, in walk order: a `VarDecl` records its
binding, a `FuncDef` records its parameters and then walks its body, and
the block statements walk their bodies.  (Derived bookkeeping over the
embedded `_gen_stmt`, used to state what the flat table holds.) -/
def declsOf : Stmt → List (String × String)
  | .varDecl n t _ _ _ => [(n, t)]
  | .ifStmt _ tb eb _ => declsOfList tb ++ declsOfList eb
  | .whileStmt _ b _ => declsOfList b
  | .funcDef _ ps _ b _ => ps ++ declsOfList b
  | _ => []

/-- `declsOf` over a statement sequence, in order. -/
def declsOfList : List Stmt → List (String × String)
  | [] => []
  | s :: ss => declsOf s ++ declsOfList ss

end

/-- Witness program for the flat-type-table claim: `x` declared as `int`
at top level, then re-declared as `string` inside an `if` branch. -/
def progShadow : List Stmt :=
  [.varDecl "x" "int" (.number (.int 1) none) true none,
   .ifStmt (.bool true none)
     [.varDecl "x" "string" (.str "s" none) true none] [] none]

/-- The generator state after walking `progShadow` from a fresh generator:
the flat `_var_types` table holds the `if`-branch re-declaration first. -/
def stShadow : CGState :=
  ⟨0,
   ["int x = 1;", "if (1) \x7b", "    char* x = \"s\";", "\x7d"],
   [("x", "string"), ("x", "int")],
   []⟩

/-! ## Helper lemmas: list facts -/

/-- `find?` over an append searches the first list first. -/
theorem findq_append {α : Type} (p : α → Bool) (l1 l2 : List α) :
    (l1 ++ l2).find? p =
      (match l1.find? p with
       | some x => some x
       | none => l2.find? p) := by
  induction l1 with
  | nil => simp
  | cons a l ih =>
    by_cases h : p a <;> simp [List.find?_cons, h, ih]

/-- Dropping the length of the left part of an append. -/
theorem drop_len_append {α : Type} (l1 l2 : List α) :
    (l1 ++ l2).drop l1.length = l2 := by
  induction l1 with
  | nil => simp
  | cons a l ih => simp [ih]

/-- The parameter-registration `foldl` of the embedded `_gen_stmt`
(`FuncDef` arm) prepends the parameters in reverse. -/
theorem foldl_pair_cons (ps : List (String × String))
    (acc : List (String × String)) :
    ps.foldl (fun acc p => (p.1, p.2) :: acc) acc = ps.reverse ++ acc := by
  induction ps generalizing acc with
  | nil => rfl
  | cons p ps ih => simp [List.foldl_cons, ih]

/-! ## Helper lemmas: analyzer state shape -/

/-- `_define` keeps the scope-stack depth. -/
theorem defineSym_scopes_length (st : AState) (n : String) (s : Sym) :
    (defineSym st n s).scopes.length = st.scopes.length := by
  cases h : st.scopes <;> simp [defineSym, h]

/-- `_define` touches only the innermost scope. -/
theorem defineSym_scopes_tail (st : AState) (n : String) (s : Sym) :
    (defineSym st n s).scopes.tail = st.scopes.tail := by
  cases h : st.scopes <;> simp [defineSym, h]

/-- `_define` does not touch the current-function reference. -/
theorem defineSym_current_func (st : AState) (n : String) (s : Sym) :
    (defineSym st n s).current_func = st.current_func := rfl

/-- Parameter registration (a `foldl` of `_define`s) keeps the depth and
the outer scopes. -/
theorem paramFold_scopes (ps : List (String × String)) (st : AState) :
    ((ps.foldl (fun s p => defineSym s p.1 (.var ⟨p.1, p.2, false⟩)) st).scopes.length
        = st.scopes.length) ∧
      ((ps.foldl (fun s p => defineSym s p.1 (.var ⟨p.1, p.2, false⟩)) st).scopes.tail
        = st.scopes.tail) := by
  induction ps generalizing st with
  | nil => exact ⟨rfl, rfl⟩
  | cons p ps ih =>
    simp only [List.foldl_cons]
    refine ⟨?_, ?_⟩
    · rw [(ih _).1, defineSym_scopes_length]
    · rw [(ih _).2, defineSym_scopes_tail]

/-- Every exit of `_check_var_decl` either registers the symbol (success)
or raises carrying the unchanged entry state. -/
theorem checkVarDecl_state (st : AState) (n t : String) (v : Expr)
    (m : Bool) (l : Option Nat) :
    (match checkVarDecl st n t v m l with
     | .ok st' => st' = defineSym st n (.var ⟨n, t, m⟩)
     | .error (_, st') => st' = st) := by
  unfold checkVarDecl
  cases checkExpr st v with
  | error pe => rfl
  | ok vt =>
    by_cases h : (pyTruthy vt = true ∧ vt ≠ some t) <;> simp [h]

/-- Every exit of the value part of `_check_assign` carries the unchanged
entry state. -/
theorem checkAssignValue_state (st : AState) (n : String) (v : Expr)
    (l : Option Nat) (sym : Sym) :
    (match checkAssignValue st n v l sym with
     | .ok st' => st' = st
     | .error (_, st') => st' = st) := by
  unfold checkAssignValue
  cases checkExpr st v with
  | error pe => rfl
  | ok vt =>
    cases hvt : pyTruthy vt with
    | false => simp [hvt]
    | true =>
      cases symTypeAttr sym with
      | error pe => simp [hvt]
      | ok t0 => by_cases hq : vt = some t0 <;> simp [hvt, hq]

/-- Every exit of `_check_assign` carries the unchanged entry state. -/
theorem checkAssign_state (st : AState) (n : String) (v : Expr)
    (l : Option Nat) :
    (match checkAssign st n v l with
     | .ok st' => st' = st
     | .error (_, st') => st' = st) := by
  unfold checkAssign
  cases lookupSym st.scopes n with
  | none => rfl
  | some sym =>
    cases sym with
    | var s =>
      cases hm : s.mutable with
      | false => simp [hm]
      | true => simpa [hm] using checkAssignValue_state st n v l (.var s)
    | func f => exact checkAssignValue_state st n v l (.func f)

/-- Every exit of `_check_return` carries the unchanged entry state. -/
theorem checkReturn_state (st : AState) (v : Option Expr) (l : Option Nat) :
    (match checkReturn st v l with
     | .ok st' => st' = st
     | .error (_, st') => st' = st) := by
  unfold checkReturn
  cases st.current_func with
  | none => rfl
  | some cf =>
    cases checkExprOpt st v with
    | error pe => rfl
    | ok rt =>
      by_cases hq : (pyTruthy rt = true ∧ rt ≠ some cf.return_type) <;>
        simp [hq]

mutual

/-- Push/pop discipline of one statement's analysis: on success the scope
stack regains its depth and its outer scopes are untouched; when an
exception escapes, the depth at the raise is at least the entry depth (the
pops that lexically follow the raising walk are skipped, never executed
early). -/
theorem scopeInv_stmt (st : AState) (s : Stmt) :
    (match checkStmt st s with
     | .ok st' => st'.scopes.length = st.scopes.length ∧
         st'.scopes.tail = st.scopes.tail
     | .error (_, st') => st.scopes.length ≤ st'.scopes.length) := by
  cases s with
  | varDecl n t v m l =>
    have h := checkVarDecl_state st n t v m l
    simp only [checkStmt]
    cases hc : checkVarDecl st n t v m l with
    | error e =>
      obtain ⟨pe, st'⟩ := e
      rw [hc] at h; simp [h]
    | ok st' =>
      rw [hc] at h
      simp [h, defineSym_scopes_length, defineSym_scopes_tail]
  | assign n v l =>
    have h := checkAssign_state st n v l
    simp only [checkStmt]
    cases hc : checkAssign st n v l with
    | error e => obtain ⟨pe, st'⟩ := e; rw [hc] at h; simp [h]
    | ok st' => rw [hc] at h; simp [h]
  | ifStmt c tb eb l =>
    simp only [checkStmt]
    cases hc : checkExpr st c with
    | error pe => simp
    | ok t =>
      simp only [hc]
      have h1 := scopeInv_stmts (pushScope st) tb
      cases h2 : checkStmts (pushScope st) tb with
      | error e =>
        obtain ⟨pe, st'⟩ := e
        rw [h2] at h1
        simp only [h2]
        have hps : (pushScope st).scopes.length = st.scopes.length + 1 := rfl
        omega
      | ok st2 =>
        rw [h2] at h1
        obtain ⟨h1l, h1t⟩ := h1
        have h1l' : st2.scopes.length = st.scopes.length + 1 := h1l
        have h1t' : st2.scopes.tail = st.scopes := h1t
        simp only [h2]
        have h3 := scopeInv_stmts (pushScope (popScope st2)) eb
        have hpp : (pushScope (popScope st2)).scopes = [] :: st.scopes := by
          simp [pushScope, popScope, h1t']
        cases h4 : checkStmts (pushScope (popScope st2)) eb with
        | error e =>
          obtain ⟨pe, st'⟩ := e
          rw [h4] at h3
          simp only [h4]
          rw [hpp] at h3
          simp only [List.length_cons] at h3
          omega
        | ok st3 =>
          rw [h4] at h3
          obtain ⟨h3l, h3t⟩ := h3
          rw [hpp] at h3t
          simp only [h4]
          have hfin : (popScope st3).scopes = st.scopes := by
            simp [popScope, h3t]
          rw [hfin]
          exact ⟨rfl, rfl⟩
  | whileStmt c b l =>
    simp only [checkStmt]
    cases hc : checkExpr st c with
    | error pe => simp
    | ok t =>
      simp only [hc]
      have h1 := scopeInv_stmts (pushScope st) b
      cases h2 : checkStmts (pushScope st) b with
      | error e =>
        obtain ⟨pe, st'⟩ := e
        rw [h2] at h1
        simp only [h2]
        have hps : (pushScope st).scopes.length = st.scopes.length + 1 := rfl
        omega
      | ok st2 =>
        rw [h2] at h1
        obtain ⟨h1l, h1t⟩ := h1
        have h1t' : st2.scopes.tail = st.scopes := h1t
        simp only [h2]
        have hfin : (popScope st2).scopes = st.scopes := by
          simp [popScope, h1t']
        rw [hfin]
        exact ⟨rfl, rfl⟩
  | funcDef n ps rt b l =>
    simp only [checkStmt]
    have hp := paramFold_scopes ps
      { pushScope (defineSym st n (.func ⟨n, ps, rt⟩)) with
        current_func := some ⟨n, ps, rt⟩ }
    obtain ⟨hpl, hpt⟩ := hp
    have hsc : ({ pushScope (defineSym st n (.func ⟨n, ps, rt⟩)) with
        current_func := some ⟨n, ps, rt⟩ } : AState).scopes =
        [] :: (defineSym st n (.func ⟨n, ps, rt⟩)).scopes := rfl
    rw [hsc] at hpl hpt
    have h1 := scopeInv_stmts
      (ps.foldl (fun s p => defineSym s p.1 (.var ⟨p.1, p.2, false⟩))
        { pushScope (defineSym st n (.func ⟨n, ps, rt⟩)) with
          current_func := some ⟨n, ps, rt⟩ }) b
    cases h2 : checkStmts
        (ps.foldl (fun s p => defineSym s p.1 (.var ⟨p.1, p.2, false⟩))
          { pushScope (defineSym st n (.func ⟨n, ps, rt⟩)) with
            current_func := some ⟨n, ps, rt⟩ }) b with
    | error e =>
      obtain ⟨pe, st'⟩ := e
      rw [h2] at h1
      simp only [h2]
      rw [hpl] at h1
      simp only [List.length_cons, defineSym_scopes_length] at h1
      omega
    | ok st4 =>
      rw [h2] at h1
      obtain ⟨h1l, h1t⟩ := h1
      rw [hpl] at h1l
      rw [hpt] at h1t
      simp only [List.length_cons, defineSym_scopes_length] at h1l
      simp only [List.tail_cons] at h1t
      simp only [h2]
      have hfin : ∀ cf : Option FuncSymbol,
          (popScope { st4 with current_func := cf }).scopes =
            (defineSym st n (.func ⟨n, ps, rt⟩)).scopes := by
        intro cf
        simp [popScope, h1t]
      rw [hfin]
      exact ⟨defineSym_scopes_length st n _, defineSym_scopes_tail st n _⟩
  | returnStmt v l =>
    have h := checkReturn_state st v l
    simp only [checkStmt]
    cases hc : checkReturn st v l with
    | error e => obtain ⟨pe, st'⟩ := e; rw [hc] at h; simp [h]
    | ok st' => rw [hc] at h; simp [h]
  | printStmt vs l => simp [checkStmt]
  | exprStmt e l =>
    simp only [checkStmt]
    cases hc : checkExpr st e with
    | error pe => simp
    | ok t => simp [hc]

/-- Push/pop discipline over a statement sequence. -/
theorem scopeInv_stmts (st : AState) (ss : List Stmt) :
    (match checkStmts st ss with
     | .ok st' => st'.scopes.length = st.scopes.length ∧
         st'.scopes.tail = st.scopes.tail
     | .error (_, st') => st.scopes.length ≤ st'.scopes.length) := by
  cases ss with
  | nil => simp [checkStmts]
  | cons s ss =>
    simp only [checkStmts]
    have h1 := scopeInv_stmt st s
    cases h : checkStmt st s with
    | error e =>
      obtain ⟨pe, st'⟩ := e
      rw [h] at h1
      simpa using h1
    | ok st1 =>
      rw [h] at h1
      obtain ⟨h1l, h1t⟩ := h1
      simp only [h]
      have h2 := scopeInv_stmts st1 ss
      cases h3 : checkStmts st1 ss with
      | error e =>
        obtain ⟨pe, st'⟩ := e
        rw [h3] at h2
        simp only [h3]
        omega
      | ok st2 =>
        rw [h3] at h2
        obtain ⟨h2l, h2t⟩ := h2
        simp only [h3]
        exact ⟨h2l.trans h1l, h2t.trans h1t⟩

end

/-! ## Helper lemmas: generator state shape -/

/-- `_emit` appends exactly one line. -/
theorem emit_output (st : CGState) (l : String) :
    (emit st l).output = st.output ++ [indentOf st.indent_level ++ l] := rfl

/-- `_emit` keeps the indentation level. -/
theorem emit_indent (st : CGState) (l : String) :
    (emit st l).indent_level = st.indent_level := rfl

/-- `_emit` keeps the `_var_types` table. -/
theorem emit_var_types (st : CGState) (l : String) :
    (emit st l).var_types = st.var_types := rfl

mutual

/-- Shape of one statement's generation, on success: the output grows by a
suffix, the indentation level is restored, and the flat `_var_types` table
gains exactly the walk's declarations, most recent first. -/
theorem genStmt_props (st : CGState) (s : Stmt) (st' : CGState)
    (h : genStmt st s = some st') :
    (∃ t, st'.output = st.output ++ t) ∧
      st'.indent_level = st.indent_level ∧
      st'.var_types = (declsOf s).reverse ++ st.var_types := by
  cases s with
  | varDecl n t v m l =>
    simp only [genStmt] at h
    cases hct : chalkTypeToC t with
    | none => simp only [hct] at h; exact Option.noConfusion h
    | some ct =>
      simp only [hct, Option.some.injEq] at h
      subst h
      exact ⟨⟨_, rfl⟩, rfl, by simp [declsOf, emit]⟩
  | assign n v l =>
    simp only [genStmt, Option.some.injEq] at h
    subst h
    exact ⟨⟨_, rfl⟩, rfl, by simp [declsOf, emit]⟩
  | printStmt vs l =>
    simp only [genStmt, genPrint] at h
    cases hga : genArgs vs with
    | none => simp only [hga] at h; exact Option.noConfusion h
    | some ss =>
      simp only [hga, Option.some.injEq] at h
      subst h
      exact ⟨⟨_, rfl⟩, rfl, by simp [declsOf, emit]⟩
  | returnStmt v l =>
    cases v with
    | none =>
      simp only [genStmt, Option.some.injEq] at h
      subst h
      exact ⟨⟨_, rfl⟩, rfl, by simp [declsOf, emit]⟩
    | some e =>
      simp only [genStmt, Option.some.injEq] at h
      subst h
      exact ⟨⟨_, rfl⟩, rfl, by simp [declsOf, emit]⟩
  | exprStmt e l =>
    simp only [genStmt, Option.some.injEq] at h
    subst h
    exact ⟨⟨_, rfl⟩, rfl, by simp [declsOf, emit]⟩
  | ifStmt c tb eb l =>
    simp only [genStmt] at h
    split at h
    · exact Option.noConfusion h
    · rename_i st2 h2
      obtain ⟨⟨t1, ho1⟩, hi1, hv1⟩ := genStmts_props _ tb _ h2
      simp only [emit_output, emit_indent, emit_var_types] at ho1 hi1 hv1
      split at h
      · rename_i hemp
        have heb : eb = [] := by simpa using hemp
        simp only [Option.some.injEq] at h
        subst h
        subst heb
        refine ⟨?_, ?_, ?_⟩
        · simp only [emit_output, ho1, List.append_assoc]
          exact ⟨_, rfl⟩
        · simp only [emit_indent, hi1]
          omega
        · simp [emit_var_types, hv1, declsOf, declsOfList]
      · split at h
        · exact Option.noConfusion h
        · rename_i st5 h4
          obtain ⟨⟨t2, ho2⟩, hi2, hv2⟩ := genStmts_props _ eb _ h4
          simp only [emit_output, emit_indent, emit_var_types] at ho2 hi2 hv2
          simp only [Option.some.injEq] at h
          subst h
          refine ⟨?_, ?_, ?_⟩
          · simp only [emit_output, ho2, ho1, List.append_assoc]
            exact ⟨_, rfl⟩
          · simp only [emit_indent, hi2, hi1]
            omega
          · simp [emit_var_types, hv2, hv1, declsOf, declsOfList]
  | whileStmt c b l =>
    simp only [genStmt] at h
    split at h
    · exact Option.noConfusion h
    · rename_i st2 h2
      obtain ⟨⟨t1, ho1⟩, hi1, hv1⟩ := genStmts_props _ b _ h2
      simp only [emit_output, emit_indent, emit_var_types] at ho1 hi1 hv1
      simp only [Option.some.injEq] at h
      subst h
      refine ⟨?_, ?_, ?_⟩
      · simp only [emit_output, ho1, List.append_assoc]
        exact ⟨_, rfl⟩
      · simp only [emit_indent, hi1]
        omega
      · simp [emit_var_types, hv1, declsOf]
  | funcDef n ps rt b l =>
    simp only [genStmt] at h
    cases hct : chalkTypeToC rt with
    | none => simp only [hct] at h; exact Option.noConfusion h
    | some crt =>
      simp only [hct] at h
      cases hcp : paramsToC ps with
      | none => simp only [hcp] at h; exact Option.noConfusion h
      | some cps =>
        simp only [hcp] at h
        split at h
        · exact Option.noConfusion h
        · rename_i st3 h2
          obtain ⟨⟨t1, ho1⟩, hi1, hv1⟩ := genStmts_props _ b _ h2
          simp only [emit_output, emit_indent, emit_var_types]
            at ho1 hi1 hv1
          simp only [Option.some.injEq] at h
          subst h
          refine ⟨?_, ?_, ?_⟩
          · simp only [emit_output, ho1, List.append_assoc]
            exact ⟨_, rfl⟩
          · simp only [emit_indent, hi1]
            omega
          · simp [emit_var_types, hv1, foldl_pair_cons, declsOf]

/-- Shape of a statement sequence's generation, on success. -/
theorem genStmts_props (st : CGState) (ss : List Stmt) (st' : CGState)
    (h : genStmts st ss = some st') :
    (∃ t, st'.output = st.output ++ t) ∧
      st'.indent_level = st.indent_level ∧
      st'.var_types = (declsOfList ss).reverse ++ st.var_types := by
  cases ss with
  | nil =>
    simp only [genStmts, Option.some.injEq] at h
    subst h
    exact ⟨⟨[], by simp⟩, rfl, by simp [declsOfList]⟩
  | cons s ss =>
    simp only [genStmts] at h
    split at h
    · exact Option.noConfusion h
    · rename_i st1 h1
      obtain ⟨⟨t1, ho1⟩, hi1, hv1⟩ := genStmt_props _ s _ h1
      obtain ⟨⟨t2, ho2⟩, hi2, hv2⟩ := genStmts_props _ ss _ h
      refine ⟨⟨t1 ++ t2, by rw [ho2, ho1]; simp⟩, hi2.trans hi1, ?_⟩
      rw [hv2, hv1]
      simp [declsOfList]

end

/-! ## Claims -/

/-- C1, counterexample: the claim says unary negation renders fully
parenthesized, parentheses never omitted.  The expression lowering of
`-x` yields the bare text `-x`, which contains no parenthesis at all:
the `UnaryOp` arm of `_gen_expr` emits `f"-{operand}"` without parens. -/
theorem C1_counterexample :
    genExpr (.unaryOp "-" (.var "x" none) none) = some "-x" ∧
      "-x".data.all (fun ch => (ch != '(') && (ch != ')')) = true := by
  refine ⟨rfl, by decide⟩

/-- C1 (amended): every binary operator expression is lowered to a fully
parenthesized infix rendering, but a unary negation is lowered to the bare
prefix `-` applied to its operand's rendering, with no parentheses added
around (or by) the negation itself. -/
theorem C1_amended (l : Expr) (op : String) (r : Expr) (e : Expr)
    (li li2 : Option Nat) :
    genExpr (.binOp l op r li) =
        some ("(" ++ genExprS l ++ " " ++ op ++ " " ++ genExprS r ++ ")") ∧
      genExpr (.unaryOp "-" e li2) = some ("-" ++ genExprS e) := by
  constructor
  · simp [genExpr, genExprS]
  · simp [genExpr, genExprS]

/-- C2, counterexample: the claim says every pushed scope is popped on
every exit path, including when a `SemanticError` is raised inside the
block, so that after `analyze` raises the stack again holds exactly the
scopes it held before entering the block.  Analyzing an `if` whose
then-branch references an undefined variable raises from inside the
pushed then-branch scope; the pop after the loop is skipped, and the
analyzer is left with two scopes where the initial state had one. -/
theorem C2_counterexample :
    analyze [.ifStmt (.bool true none)
        [.exprStmt (.var "z" none) none] [] none] =
      .error (.chalk "* undefined variable 'z'",
        ⟨[[], []], none⟩) ∧
      ([[], []] : List Scope).length ≠ initState.scopes.length := by
  refine ⟨rfl, by decide⟩

/-- C2 (amended): on every successful analysis of a statement the scope
stack regains exactly its entry depth and every outer scope is untouched
(each push is paired with a pop); but when a `SemanticError` escapes, the
pops that lexically follow the raise are skipped, so the stack at the
moment of the raise is at least as deep as on entry — it is not restored
on the error path. -/
theorem C2_amended (st : AState) (s : Stmt) :
    (match checkStmt st s with
     | .ok st' => st'.scopes.length = st.scopes.length ∧
         st'.scopes.tail = st.scopes.tail
     | .error (_, st') => st.scopes.length ≤ st'.scopes.length) :=
  scopeInv_stmt st s

/-- C5 (confirmed): `_check_var_decl` checks the initializer against the
state from before the declaration, and registers the declared name only
afterwards.  With the self-referential initializer `Var n`: when `n` is
unbound the declaration fails with the undefined-variable error; when an
outer binding exists, the initializer resolves to the *outer* binding's
type (it is that type, not the declared one, that appears in the mismatch
message), and on type agreement the symbol is registered after the
check.  (A name bound to a function symbol makes `_check_expr` read the
missing `type_` attribute: `AttributeError`.) -/
theorem C5 (st : AState) (n t : String) (m : Bool) (l l2 : Option Nat) :
    (match lookupSym st.scopes n with
     | none =>
       checkStmt st (.varDecl n t (.var n l2) m l) =
         .error (.chalk (errMsg ("undefined variable '" ++ n ++ "'") l2), st)
     | some (.var v) =>
       checkStmt st (.varDecl n t (.var n l2) m l) =
         (if v.type_ ≠ "" ∧ v.type_ ≠ t then
           .error (.chalk (errMsg
             ("type mismatch: '" ++ n ++ "' is '" ++ t ++ "' but got '" ++
               v.type_ ++ "'") l), st)
         else .ok (defineSym st n (.var ⟨n, t, m⟩)))
     | some (.func _) =>
       checkStmt st (.varDecl n t (.var n l2) m l) =
         .error (.attrError, st)) := by
  cases hl : lookupSym st.scopes n with
  | none => simp [checkStmt, checkVarDecl, checkExpr, hl]
  | some sym =>
    cases sym with
    | var v =>
      simp only [checkStmt, checkVarDecl, checkExpr, hl, symTypeAttr,
        Except.map, pyTruthy, pyNoneStr, Option.some.injEq]
      by_cases h1 : v.type_ = ""
      · simp [h1]
      · by_cases h2 : v.type_ = t <;> simp [h1, h2]
    | func f =>
      simp [checkStmt, checkVarDecl, checkExpr, hl, symTypeAttr, Except.map]

/-- C6, counterexample: the claim says registration-before-body makes
direct recursion work "and so does mutual recursion within the same
scope".  Analysis is a single pass: while the body of the first function
is analyzed, the second function of a mutually recursive pair is not yet
registered, so the call to it fails as an undefined function. -/
theorem C6_counterexample :
    analyze [.funcDef "a" [] "void"
        [.exprStmt (.funcCall "b" [] none) none] none,
      .funcDef "b" [] "void" [] none] =
      .error (.chalk "* undefined function 'b'",
        ⟨[[], [("a", .func ⟨"a", [], "void"⟩)]],
          some ⟨"a", [], "void"⟩⟩) := by
  rfl

/-- C6 (amended): `_check_func_def` registers the function symbol in the
current scope before analyzing the body, so a direct recursive call to
the function's own name resolves successfully during the body's
analysis, from any analyzer state (with the nonempty scope stack every
reachable state has); but mutual recursion within the same scope does
not work, because a call to a function defined later in the scope is
checked before that function is registered. -/
theorem C6_amended (st : AState) (f ret : String) (l l2 l3 : Option Nat)
    (h : st.scopes ≠ []) :
    checkStmt st
        (.funcDef f [] ret [.exprStmt (.funcCall f [] l3) l2] l) =
      .ok (defineSym st f (.func ⟨f, [], ret⟩)) := by
  obtain ⟨scs, cf⟩ := st
  cases scs with
  | nil => exact absurd rfl h
  | cons sc rest =>
    simp [checkStmt, checkStmts, checkExpr, checkArgs, defineSym,
      pushScope, popScope, lookupSym, scopeLookup]

/-- C6 (witness for the amended theorem). -/
theorem C6_witness :
    checkStmt ⟨[[]], none⟩
        (.funcDef "f" [] "int"
          [.exprStmt (.funcCall "f" [] none) none] none) =
      .ok (defineSym ⟨[[]], none⟩ "f" (.func ⟨"f", [], "int"⟩)) :=
  C6_amended ⟨[[]], none⟩ "f" "int" none none none (by simp)

/-- C7 (confirmed): when a call's target resolves to a function symbol
and the argument count differs from the parameter count,
`_check_func_call` raises the arity `SemanticError`, whose message names
both the expected parameter count and the supplied argument count. -/
theorem C7 (st : AState) (n : String) (args : List Expr)
    (fs : FuncSymbol) (l : Option Nat)
    (h1 : lookupSym st.scopes n = some (.func fs))
    (h2 : args.length ≠ fs.params.length) :
    checkExpr st (.funcCall n args l) =
      .error (.chalk (errMsg
        ("'" ++ n ++ "' expects " ++ toString fs.params.length ++
          " argument(s), got " ++ toString args.length) l)) := by
  simp [checkExpr, h1, h2]

/-- C7 (witness): calling a two-parameter function with zero arguments. -/
theorem C7_witness :
    checkExpr ⟨[[("f", .func ⟨"f", [("a", "int"), ("b", "int")], "int"⟩)]],
        none⟩ (.funcCall "f" [] none) =
      .error (.chalk "* 'f' expects 2 argument(s), got 0") :=
  C7 ⟨[[("f", .func ⟨"f", [("a", "int"), ("b", "int")], "int"⟩)]], none⟩
    "f" [] ⟨"f", [("a", "int"), ("b", "int")], "int"⟩ none rfl (by decide)

/-- C8 (confirmed): assigning to a name bound to an immutable variable
symbol raises the immutability `SemanticError`, and its remediation hint
names both the variable and its declared type
(`hint: declare it as 'mut <name>: <type> = ...'`). -/
theorem C8 (st : AState) (n : String) (v : Expr) (sy : Symbol)
    (l : Option Nat)
    (h1 : lookupSym st.scopes n = some (.var sy))
    (h2 : sy.mutable = false) :
    checkStmt st (.assign n v l) =
      .error (.chalk (errMsg
        ("cannot assign to immutable variable '" ++ n ++ "'\n" ++
          "hint: declare it as 'mut " ++ n ++ ": " ++ sy.type_ ++
          " = ...'") l), st) := by
  simp [checkStmt, checkAssign, h1, h2]

/-- C8 (witness): reassigning an immutable `x : int`. -/
theorem C8_witness :
    checkStmt ⟨[[("x", .var ⟨"x", "int", false⟩)]], none⟩
        (.assign "x" (.number (.int 1) none) none) =
      .error (.chalk ("* cannot assign to immutable variable 'x'\n" ++
          "hint: declare it as 'mut x: int = ...'"),
        ⟨[[("x", .var ⟨"x", "int", false⟩)]], none⟩) :=
  C8 ⟨[[("x", .var ⟨"x", "int", false⟩)]], none⟩ "x"
    (.number (.int 1) none) ⟨"x", "int", false⟩ none rfl rfl

/-- C10 (confirmed): when an assignment target resolves to a function
symbol, `_check_assign` raises neither the undefined-variable error (the
lookup succeeded) nor the immutability error (`isinstance(sym, Symbol)`
is false for a `FuncSymbol`); once the assigned value's type is
inferable (truthy), the type-compatibility check reads the `type_`
attribute that `FuncSymbol` does not carry, and analysis dies with an
`AttributeError` — which is not a `ChalkError`/`SemanticError`, so the
embedding over `Except` of `ChalkError` alone would not be total on
these inputs. -/
theorem C10 (st : AState) (n : String) (v : Expr) (l : Option Nat) :
    (match lookupSym st.scopes n with
     | some (.func _) =>
       checkStmt st (.assign n v l) =
           (match checkExpr st v with
            | .error pe => .error (pe, st)
            | .ok vt =>
              if pyTruthy vt then .error (.attrError, st) else .ok st) ∧
         ∀ m, (PyError.attrError : PyError) ≠ .chalk m
     | _ => True) := by
  cases hl : lookupSym st.scopes n with
  | none => trivial
  | some sym =>
    cases sym with
    | var _ => trivial
    | func f =>
      refine ⟨?_, by simp⟩
      cases hcv : checkExpr st v with
      | error pe => simp [checkStmt, checkAssign, checkAssignValue, hl, hcv]
      | ok vt =>
        cases hvt : pyTruthy vt <;>
          simp [checkStmt, checkAssign, checkAssignValue, hl, hcv,
            symTypeAttr, hvt]

/-- C3 (confirmed): the generator's print-time `_var_types` table is
global and flat.  After the emission walk of any statement sequence, a
variable-reference type query resolves to the type of the declaration of
that name the walk recorded most recently (the last entry of the
flattened walk-order declaration list), regardless of which scope the
declaration sat in; only when the walk recorded no declaration of the
name does the query fall back to the table from before the walk. -/
theorem C3 (st : CGState) (ss : List Stmt) (st' : CGState) (n : String)
    (l : Option Nat) (h : genStmts st ss = some st') :
    exprType st' (.var n l) =
      (match (declsOfList ss).reverse.find? (fun p => p.1 = n) with
       | some p => some p.2
       | none => exprType st (.var n l)) := by
  obtain ⟨-, -, hv⟩ := genStmts_props _ ss _ h
  simp only [exprType, hv, findq_append]
  cases hf : (declsOfList ss).reverse.find? (fun p => p.1 = n) with
  | some p => simp
  | none => simp [exprType]

/-- C3 (witness): after `progShadow` — `x : int` at top level, then
`x : string` inside an `if` branch — the generator resolves `x` to
`string`, the re-declaration its walk saw most recently, although the
lexically visible binding at that point is the outer `x : int`. -/
theorem C3_witness :
    genStmts cgInit progShadow = some stShadow ∧
      exprType stShadow (.var "x" none) = some "string" := by
  refine ⟨rfl, ?_⟩
  exact (C3 cgInit progShadow stShadow "x" none (by rfl)).trans (by rfl)

/-- C4 (confirmed): `generate` emits the two fixed include directives
(and a blank line), then the `FuncDef`s in source order, then — only if
at least one non-`FuncDef` top-level statement exists — one synthetic
`int main()` function wrapping the remaining top-level statements in
original order, whose body ends in the final `return 0;` before the
closing brace; the whole output is one newline-joined text. -/
theorem C4 (prog : Program) :
    (match genStmts headerState (prog.filter isFuncDef) with
     | none => generate prog = none
     | some stF =>
       if (prog.filter (fun s => !isFuncDef s)).isEmpty then
         generate prog = some (String.intercalate "\n"
           (["#include <stdio.h>", "#include <string.h>", ""] ++
             stF.output.drop 3))
       else
         match genStmts { emit stF "int main() \x7b" with
             indent_level := stF.indent_level + 1 }
             (prog.filter (fun s => !isFuncDef s)) with
         | none => generate prog = none
         | some stB =>
           generate prog = some (String.intercalate "\n"
             (["#include <stdio.h>", "#include <string.h>", ""] ++
               stF.output.drop 3 ++ ["int main() \x7b"] ++
               stB.output.drop (stF.output.length + 1) ++
               ["    return 0;", "\x7d"]))) := by
  cases hF : genStmts headerState (prog.filter isFuncDef) with
  | none => simp [generate, hF]
  | some stF =>
    obtain ⟨⟨tF, hoF⟩, hiF, -⟩ := genStmts_props _ _ _ hF
    have hhdr : headerState.output =
        ["#include <stdio.h>", "#include <string.h>", ""] := rfl
    have hiF0 : stF.indent_level = 0 := hiF.trans rfl
    have hdropF : stF.output.drop 3 = tF := by
      rw [hoF, hhdr]
      simp
    cases hne : (prog.filter (fun s => !isFuncDef s)).isEmpty with
    | true =>
      simp only [hne, if_true]
      have hcomb : ["#include <stdio.h>", "#include <string.h>", ""] ++
          stF.output.drop 3 = stF.output := by
        rw [hdropF, ← hhdr, ← hoF]
      rw [hcomb]
      simp [generate, hF, hne]
    | false =>
      simp only [hne, Bool.false_eq_true, if_false]
      cases hB : genStmts { emit stF "int main() \x7b" with
          indent_level := stF.indent_level + 1 }
          (prog.filter (fun s => !isFuncDef s)) with
      | none =>
        simp [generate, hF, hne, hB]
      | some stB =>
        obtain ⟨⟨tB, hoB⟩, hiB, -⟩ := genStmts_props _ _ _ hB
        simp only [emit_output, emit_indent] at hoB hiB
        rw [hiF0] at hoB hiB
        have hoB' : stB.output =
            (stF.output ++ ["int main() \x7b"]) ++ tB := by
          rw [hoB]
          simp [indentOf]
        have hiB' : stB.indent_level = 1 := hiB
        have hdropB : stB.output.drop (stF.output.length + 1) = tB := by
          rw [hoB']
          have hl := drop_len_append (stF.output ++ ["int main() \x7b"]) tB
          simp only [List.length_append, List.length_cons, List.length_nil] at hl
          exact hl
        simp only [generate, hF, hne, Bool.false_eq_true, if_false, hB]
        rw [hdropF, hdropB]
        congr 1
        rw [emit_output, emit_output]
        simp only [emit_indent, hiB']
        rw [hoB']
        simp [indentOf, ← hhdr, ← hoF]

/-- C9 (confirmed): for an `if` whose else-branch statement list is
empty — the shared AST representation of "no else clause" and "empty
else block", which therefore generate identical code by construction —
the generated lines are exactly the `if (...) {` header, the then-body
at one deeper indent, and the closing `}`: no `} else {` block header is
ever emitted. -/
theorem C9 (st : CGState) (c : Expr) (tb : List Stmt) (l : Option Nat) :
    genStmt st (.ifStmt c tb [] l) =
      (genStmts { emit st ("if (" ++ genExprS c ++ ") \x7b") with
          indent_level := st.indent_level + 1 } tb).map
        (fun st2 =>
          emit { st2 with indent_level := st2.indent_level - 1 } "\x7d") := by
  simp only [genStmt]
  cases h : genStmts { emit st ("if (" ++ genExprS c ++ ") \x7b") with
      indent_level := st.indent_level + 1 } tb with
  | none => simp [h]
  | some st2 => simp [h]

/-- End-to-end sanity check of the embedded generator on the spec's
scenario `let x: int = 5; print(x);`: includes, `main` wrapper, `const`
declaration, `%d` placeholder for the `int` variable, final return. -/
theorem generate_sanity :
    generate
        [.varDecl "x" "int" (.number (.int 5) none) false none,
         .printStmt [.var "x" none] none] =
      some ("#include <stdio.h>\n#include <string.h>\n\nint main() \x7b\n" ++
        "    const int x = 5;\n    printf(\"%d\\n\", x);\n    return 0;\n\x7d") := by
  rfl

end Chalk
